import Mathlib

/-!
Shallow embedding of the `filecache` package (src/filecache.go): an
in-process, disk-backed cache with per-entry TTL.  Time is modelled as an
integer timestamp passed explicitly where the Go code calls `time.Now()`;
byte payloads are lists of naturals; the in-memory index (a Go map) and the
working directory (file id to contents) are association lists; `os.CreateTemp`
fresh-name generation is a counter.  Fallible I/O steps take explicit
boolean oracles.
-/

namespace Filecache

/-- Cache entry metadata, mirroring `type item struct`: expiration timestamp
and the backing file (modelled by its id). -/
structure Item where
  expiredAt : Int
  file : Nat
  deriving Repr, DecidableEq

/-- Byte payloads. -/
abbrev Bytes := List Nat

/-- State of one `FileCache` instance: the index `cache` (Go map key to
item), the working directory `files` (file id to contents; membership means
the file is present on disk), and the fresh-name counter standing for
`os.CreateTemp` unique naming. -/
structure FCState where
  cache : List (String × Item)
  files : List (Nat × Bytes)
  nextFile : Nat
  deriving Repr, DecidableEq

/-- Go map read `m[k]` (first binding wins; states built by the operations
never hold duplicate keys). -/
def lookup? {κ α : Type} [DecidableEq κ] : List (κ × α) → κ → Option α
  | [], _ => none
  | (k', v) :: rest, k => if k = k' then some v else lookup? rest k

/-- Go map write `m[k] = v`: replace the binding if present, else append. -/
def insertKV {κ α : Type} [DecidableEq κ] : List (κ × α) → κ → α → List (κ × α)
  | [], k, v => [(k, v)]
  | (k', v') :: rest, k, v =>
      if k = k' then (k, v) :: rest else (k', v') :: insertKV rest k v

/-- Go map `delete(m, k)`: drop the binding for `k` if present. -/
def eraseKV {κ α : Type} [DecidableEq κ] : List (κ × α) → κ → List (κ × α)
  | [], _ => []
  | (k', v') :: rest, k =>
      if k = k' then rest else (k', v') :: eraseKV rest k

/-- The two error outcomes of the package: `ErrNotFound`, and any wrapped
filesystem error. -/
inductive CacheErr
  | notFound
  | ioError
  deriving Repr, DecidableEq

/-- `Get` (src/filecache.go lines 72-103).  Looks the key up; absent keys
fail with `notFound`; an entry whose deadline is strictly in the past
(`time.Now().After(item.expiredAt)`) is deleted from the index — only the
index: its backing file is neither closed nor removed — and fails with
`notFound`.  Otherwise the refreshed deadline is assigned to the local copy
`item` fetched from the map (the Go struct copy), which is never written
back to the index, and the whole backing file is read.  `seekOk` and
`readOk` drive the two fallible I/O calls; the Go function returns the pair
(bytes, error), modelled here together with the post-state. -/
def Get (s : FCState) (ttl now : Int) (key : String) (seekOk readOk : Bool) :
    (Bytes × Option CacheErr) × FCState :=
  match lookup? s.cache key with
  | none => (([], some .notFound), s)
  | some it =>
    if now > it.expiredAt then
      (([], some .notFound), { s with cache := eraseKV s.cache key })
    else
      let it := { it with expiredAt := now + ttl }
      if seekOk then
        match lookup? s.files it.file with
        | none => (([], some .ioError), s)
        | some contents =>
          if readOk then ((contents, none), s)
          else (([], some .ioError), s)
      else (([], some .ioError), s)

/-- `Put` (src/filecache.go lines 106-127).  Creates a fresh backing file in
the working directory (`createOk` is whether `os.CreateTemp` succeeds),
writes the value into it (`writeOk`), then installs the new entry into the
index, replacing any prior binding for the key.  The replaced entry's file,
if any, stays in the working directory with its handle open: the code never
closes or removes it.  Failures return before the index is touched. -/
def Put (s : FCState) (ttl now : Int) (key : String) (value : Bytes)
    (createOk writeOk : Bool) : Option CacheErr × FCState :=
  if createOk then
    let fid := s.nextFile
    let s1 : FCState :=
      { s with files := insertKV s.files fid [], nextFile := s.nextFile + 1 }
    if writeOk then
      let s2 : FCState := { s1 with files := insertKV s1.files fid value }
      (none, { s2 with cache := insertKV s2.cache key ⟨now + ttl, fid⟩ })
    else (some .ioError, s1)
  else (some .ioError, s)

/-- One Cleaner sweep, `cleanExpiredKey` (src/filecache.go lines 142-161):
snapshot `now`, collect under the read lock the keys whose deadline is
before it, then under the write lock re-check each candidate and delete
those still expired.  A candidate missing from the map reads as the zero
item (zero time), matching Go map zero-value semantics.  Backing files are
not touched. -/
def cleanExpiredKey (s : FCState) (now : Int) : FCState :=
  let expiredKeys := (s.cache.filter (fun p => p.2.expiredAt < now)).map Prod.fst
  let recheckDelete := fun (m : List (String × Item)) (k : String) =>
    if ((lookup? m k).map Item.expiredAt).getD 0 < now then eraseKV m k else m
  { s with cache := expiredKeys.foldl recheckDelete s.cache }

/-- Events the cleaner task can observe: the ticker firing at some time, or
the stop signal sent by `Stop`. -/
inductive CleanerEvent
  | tick (now : Int)
  | stopSig
  deriving Repr, DecidableEq

/-- Whether the cleaner task is still blocked in its `select` (able to
receive on the ticker or the stop channel) or has returned. -/
inductive CleanerPhase
  | selecting
  | exited
  deriving Repr, DecidableEq

/-- One delivery of an event to the cleaner task of src/filecache.go lines
129-140.  The body of `runCleaner` is a single `select` with no surrounding
loop: while the task is in the `select`, a tick triggers one sweep and the
function then returns, and a stop signal makes it return at once; events
delivered after the task has returned change nothing.  The third component
counts sweeps performed. -/
def cleanerStep (st : FCState × CleanerPhase × Nat) (e : CleanerEvent) :
    FCState × CleanerPhase × Nat :=
  match st.2.1, e with
  | .exited, _ => st
  | .selecting, .tick now => (cleanExpiredKey st.1 now, .exited, st.2.2 + 1)
  | .selecting, .stopSig => (st.1, .exited, st.2.2)

/-- `runCleaner` run against a whole sequence of events, starting blocked in
its `select`. -/
def runCleaner (s : FCState) (evs : List CleanerEvent) :
    FCState × CleanerPhase × Nat :=
  evs.foldl cleanerStep (s, .selecting, 0)

/-- Modelled from the spec: one event delivery to the Cleaner loop of
spec section 4.5, which "repeats on a fixed period until told to stop" —
each tick at which no stop has arrived performs a sweep and the task waits
for the next tick; only a stop signal terminates it.  This is the loop the
code's `runCleaner` lacks. -/
def specCleanerStep (st : FCState × CleanerPhase × Nat) (e : CleanerEvent) :
    FCState × CleanerPhase × Nat :=
  match st.2.1, e with
  | .exited, _ => st
  | .selecting, .tick now => (cleanExpiredKey st.1 now, .selecting, st.2.2 + 1)
  | .selecting, .stopSig => (st.1, .exited, st.2.2)

/-- Modelled from the spec: the repeating Cleaner loop run against a
sequence of events. -/
def specRunCleanerLoop (s : FCState) (evs : List CleanerEvent) :
    FCState × CleanerPhase × Nat :=
  evs.foldl specCleanerStep (s, .selecting, 0)

/-- Whether the unbuffered send `fc.stopCleaner <- struct\x7b\x7d` at the
top of `Stop` (src/filecache.go line 60) can complete.  The only receive on
`stopCleaner` in the program is the cleaner task's single `select`, so the
send is observed exactly when that task is still blocked in the `select`;
once the task has consumed a tick and returned, no receiver ever appears
again and the send blocks forever. -/
def stopSendCompletes : CleanerPhase → Bool
  | .selecting => true
  | .exited => false

/-- The state change `Stop` performs after its stop send completes
(src/filecache.go lines 62-68): every key is deleted from the index and the
working directory is removed recursively. -/
def stopState (_ : FCState) : FCState :=
  { cache := [], files := [], nextFile := 0 }

/-- Well-formedness: every file id in the working directory or referenced
from the index is below the fresh-name counter, mirroring `os.CreateTemp`
guaranteeing that new backing files never collide with existing ones. -/
def WF (s : FCState) : Prop :=
  (∀ p ∈ s.files, p.1 < s.nextFile) ∧ (∀ q ∈ s.cache, q.2.file < s.nextFile)

instance (s : FCState) : Decidable (WF s) := by
  unfold WF; infer_instance

/-- Reading a map just after writing a binding for the same key yields the
written value. -/
theorem lookup_insertKV_self {κ α : Type} [DecidableEq κ]
    (m : List (κ × α)) (k : κ) (v : α) : lookup? (insertKV m k v) k = some v := by
  induction m with
  | nil => simp [insertKV, lookup?]
  | cons p rest ih =>
    obtain ⟨k', v'⟩ := p
    by_cases h : k = k'
    · simp [insertKV, lookup?, h]
    · simp [insertKV, lookup?, h, ih]

/-- Writing a binding for one key does not change reads of another key. -/
theorem lookup_insertKV_ne {κ α : Type} [DecidableEq κ]
    (m : List (κ × α)) (k k' : κ) (v : α) (h : k' ≠ k) :
    lookup? (insertKV m k v) k' = lookup? m k' := by
  induction m with
  | nil => simp [insertKV, lookup?, h]
  | cons p rest ih =>
    obtain ⟨k₀, v₀⟩ := p
    by_cases hk : k = k₀
    · subst hk
      simp [insertKV, lookup?, h]
    · by_cases hk' : k' = k₀
      · simp [insertKV, lookup?, hk, hk']
      · simp [insertKV, lookup?, hk, hk', ih]

/-- A successful map read comes from a binding in the list. -/
theorem lookup_mem {κ α : Type} [DecidableEq κ]
    {m : List (κ × α)} {k : κ} {v : α} (h : lookup? m k = some v) : (k, v) ∈ m := by
  induction m with
  | nil => simp [lookup?] at h
  | cons p rest ih =>
    obtain ⟨k₀, v₀⟩ := p
    by_cases hk : k = k₀
    · subst hk
      simp [lookup?] at h
      simp [h]
    · simp [lookup?, hk] at h
      exact List.mem_cons_of_mem _ (ih h)

/-- C1: a successful `Get` does not extend the stored deadline.  On a state
whose only entry has deadline 10 under TTL 10, a Get at time 3 succeeds but
leaves the index deadline at 10 rather than 3 + 10 = 13: the Go code assigns
the refreshed deadline to a local copy of the struct fetched from the map
and never stores it back, so the sliding-TTL extension the claim describes
never reaches the index. -/
theorem c1_get_leaves_index_deadline_unchanged :
    ((Get ⟨[("k", ⟨10, 0⟩)], [(0, [7])], 1⟩ 10 3 "k" true true).1.2 = none) ∧
    ((lookup? (Get ⟨[("k", ⟨10, 0⟩)], [(0, [7])], 1⟩ 10 3 "k" true true).2.cache
        "k").map Item.expiredAt = some 10) ∧
    ((lookup? (Get ⟨[("k", ⟨10, 0⟩)], [(0, [7])], 1⟩ 10 3 "k" true true).2.cache
        "k").map Item.expiredAt ≠ some (3 + 10)) := by decide

/-- C2: the code's cleaner is single-shot, not a loop.  Delivered two ticks
and no stop signal, `runCleaner` performs exactly one sweep and its task
exits, while the repeating loop the spec describes sweeps at both ticks and
keeps waiting for the next one. -/
theorem c2_runCleaner_is_single_shot :
    (runCleaner ⟨[], [], 0⟩ [.tick 5, .tick 15]).2 = (CleanerPhase.exited, 1) ∧
    (specRunCleanerLoop ⟨[], [], 0⟩ [.tick 5, .tick 15]).2 =
      (CleanerPhase.selecting, 2) := by decide

/-- C3: Stop does not always return.  Once one tick has fired before Stop is
called, the cleaner task has swept once and returned, so the unbuffered stop
send at the top of Stop finds no receiver and can never complete: under this
timing Stop blocks forever. -/
theorem c3_stop_send_blocks_after_tick :
    stopSendCompletes (runCleaner ⟨[], [], 0⟩ [.tick 5]).2.1 = false := by decide

/-- C4: after Put(k, [1]) then Put(k, [2]), Get(k) does return [2] as the
claim states, but the file backing [1] (file id 0) is still present in the
working directory: the replaced entry's file is never closed or removed. -/
theorem c4_lww_but_replaced_file_remains :
    ((Get (Put (Put ⟨[], [], 0⟩ 100 0 "k" [1] true true).2 100 1 "k" [2]
        true true).2 100 2 "k" true true).1 = ([2], none)) ∧
    (lookup? (Put (Put ⟨[], [], 0⟩ 100 0 "k" [1] true true).2 100 1 "k" [2]
        true true).2.files 0 = some [1]) := by decide

/-- C5: Get on an entry that expired at time 5, invoked at time 7, removes
the index entry and returns NotFound, but the entry's backing file stays in
the working directory (it is neither closed nor deleted); and at the
boundary time now = expiresAt = 5 the entry is not treated as expired — Get
succeeds — because the code tests `time.Now().After(expiredAt)`, which is
strict. -/
theorem c5_expired_get_leaves_file_and_boundary_not_expired :
    ((Get ⟨[("k", ⟨5, 0⟩)], [(0, [9])], 1⟩ 10 7 "k" true true).1 =
        ([], some CacheErr.notFound)) ∧
    (lookup? (Get ⟨[("k", ⟨5, 0⟩)], [(0, [9])], 1⟩ 10 7 "k" true true).2.cache
        "k" = none) ∧
    (lookup? (Get ⟨[("k", ⟨5, 0⟩)], [(0, [9])], 1⟩ 10 7 "k" true true).2.files
        0 = some [9]) ∧
    ((Get ⟨[("k", ⟨5, 0⟩)], [(0, [9])], 1⟩ 10 5 "k" true true).1 = ([9], none)) := by
  decide

/-- C6: round trip — when the TTL has not elapsed by the read time (read
time at most write time plus TTL) and the file I/O succeeds, Put(k, v)
followed by Get(k) succeeds and returns exactly the bytes v, leaving the
state as Put left it. -/
theorem c6_round_trip (s : FCState) (ttl t t' : Int) (k : String) (v : Bytes)
    (h : t' ≤ t + ttl) :
    Get (Put s ttl t k v true true).2 ttl t' k true true =
      ((v, none), (Put s ttl t k v true true).2) := by
  have hnot : ¬ (t' > t + ttl) := not_lt.mpr h
  simp [Put, Get, lookup_insertKV_self, hnot]

theorem c6_round_trip_witness :
    Get (Put ⟨[], [], 0⟩ 5 0 "k" [3, 4] true true).2 5 1 "k" true true =
      (([3, 4], none), (Put ⟨[], [], 0⟩ 5 0 "k" [3, 4] true true).2) :=
  c6_round_trip ⟨[], [], 0⟩ 5 0 1 "k" [3, 4] (by decide)

/-- C7: when Put fails with an I/O error — the backing file cannot be
created, or cannot be written — the error is propagated, the index is
unchanged, and the contents of every previously allocated file (every file
id below the fresh-name counter) are untouched, so the prior entry for the
key, if any, keeps its deadline and backing file. -/
theorem c7_put_failure_preserves_index (s : FCState) (ttl t : Int)
    (k : String) (v : Bytes) (c w : Bool) (h : ¬ (c = true ∧ w = true)) :
    (Put s ttl t k v c w).1 = some CacheErr.ioError ∧
    (Put s ttl t k v c w).2.cache = s.cache ∧
    ∀ fid, fid < s.nextFile →
      lookup? (Put s ttl t k v c w).2.files fid = lookup? s.files fid := by
  cases c with
  | false => simp [Put]
  | true =>
    cases w with
    | true => exact absurd ⟨rfl, rfl⟩ h
    | false =>
      refine ⟨by simp [Put], by simp [Put], ?_⟩
      intro fid hf
      simp [Put, lookup_insertKV_ne _ _ _ _ (Nat.ne_of_lt hf)]

theorem c7_put_failure_preserves_index_witness :
    (Put ⟨[("k", ⟨3, 0⟩)], [(0, [1])], 1⟩ 5 9 "k" [2] true false).1 =
        some CacheErr.ioError ∧
    (Put ⟨[("k", ⟨3, 0⟩)], [(0, [1])], 1⟩ 5 9 "k" [2] true false).2.cache =
        (⟨[("k", ⟨3, 0⟩)], [(0, [1])], 1⟩ : FCState).cache ∧
    ∀ fid, fid < (⟨[("k", ⟨3, 0⟩)], [(0, [1])], 1⟩ : FCState).nextFile →
      lookup? (Put ⟨[("k", ⟨3, 0⟩)], [(0, [1])], 1⟩ 5 9 "k" [2]
          true false).2.files fid =
        lookup? (⟨[("k", ⟨3, 0⟩)], [(0, [1])], 1⟩ : FCState).files fid :=
  c7_put_failure_preserves_index _ 5 9 "k" [2] true false (by decide)

/-- C8: one sweep removes exactly the expired entries and preserves the live
ones — starting from an empty cache, with TTL 0 a Put at time t followed by
one sweep at any strictly later time leaves the index with no entries, while
with a TTL of one hour (3600, in seconds) a sweep no later than the deadline
leaves the entry intact. -/
theorem c8_sweep_removes_expired_preserves_live (k : String) (v : Bytes)
    (t t' : Int) (h1 : t < t') (h2 : t' ≤ t + 3600) :
    (cleanExpiredKey (Put ⟨[], [], 0⟩ 0 t k v true true).2 t').cache = [] ∧
    lookup? (cleanExpiredKey (Put ⟨[], [], 0⟩ 3600 t k v true true).2 t').cache
        k = some ⟨t + 3600, 0⟩ := by
  have hB : ¬ (t + 3600 < t') := not_lt.mpr h2
  constructor
  · simp [Put, cleanExpiredKey, insertKV, lookup?, eraseKV, h1]
  · simp [Put, cleanExpiredKey, insertKV, lookup?, hB]

theorem c8_sweep_removes_expired_preserves_live_witness :
    (cleanExpiredKey (Put ⟨[], [], 0⟩ 0 0 "k" [1] true true).2 1).cache = [] ∧
    lookup? (cleanExpiredKey (Put ⟨[], [], 0⟩ 3600 0 "k" [1]
        true true).2 1).cache "k" = some ⟨0 + 3600, 0⟩ :=
  c8_sweep_removes_expired_preserves_live "k" [1] 0 1 (by decide) (by decide)

/-- C9: whenever Get returns an error — NotFound because the key is absent
or expired, or an I/O error from seeking or reading the backing file — the
byte-sequence component of its result is the empty sequence. -/
theorem c9_error_result_is_empty (s : FCState) (ttl now : Int) (k : String)
    (so ro : Bool) (h : (Get s ttl now k so ro).1.2 ≠ none) :
    (Get s ttl now k so ro).1.1 = [] := by
  cases hl : lookup? s.cache k with
  | none => simp [Get, hl]
  | some it =>
    by_cases he : now > it.expiredAt
    · simp [Get, hl, he]
    · cases hf : lookup? s.files it.file with
      | none => simp [Get, hl, he, hf]
      | some contents =>
        cases so with
        | false => simp [Get, hl, he, hf]
        | true =>
          cases ro with
          | false => simp [Get, hl, he, hf]
          | true => exact absurd (by simp [Get, hl, he, hf]) h

theorem c9_error_result_is_empty_witness :
    (Get ⟨[], [], 0⟩ 5 0 "k" true true).1.1 = [] :=
  c9_error_result_is_empty ⟨[], [], 0⟩ 5 0 "k" true true (by decide)

/-- C10: Put never affects other keys — for every key other than the one
written, its index entry after the call is the entry before the call, and,
in a well-formed state, the contents of that entry's backing file are
unchanged as well. -/
theorem c10_put_frame (s : FCState) (ttl t : Int) (k k' : String) (v : Bytes)
    (c w : Bool) (hk : k' ≠ k) (hwf : WF s) :
    lookup? (Put s ttl t k v c w).2.cache k' = lookup? s.cache k' ∧
    ∀ it, lookup? s.cache k' = some it →
      lookup? (Put s ttl t k v c w).2.files it.file =
        lookup? s.files it.file := by
  cases c with
  | false => simp [Put]
  | true =>
    cases w with
    | false =>
      refine ⟨by simp [Put], ?_⟩
      intro it hit
      have hlt : it.file < s.nextFile := hwf.2 _ (lookup_mem hit)
      simp [Put, lookup_insertKV_ne _ _ _ _ (Nat.ne_of_lt hlt)]
    | true =>
      refine ⟨by simp [Put, lookup_insertKV_ne _ _ _ _ hk], ?_⟩
      intro it hit
      have hlt : it.file < s.nextFile := hwf.2 _ (lookup_mem hit)
      simp [Put, lookup_insertKV_ne _ _ _ _ (Nat.ne_of_lt hlt)]

theorem c10_put_frame_witness :
    lookup? (Put ⟨[("a", ⟨5, 0⟩)], [(0, [1])], 1⟩ 7 2 "b" [2]
        true true).2.cache "a" =
      lookup? (⟨[("a", ⟨5, 0⟩)], [(0, [1])], 1⟩ : FCState).cache "a" ∧
    ∀ it, lookup? (⟨[("a", ⟨5, 0⟩)], [(0, [1])], 1⟩ : FCState).cache "a" =
        some it →
      lookup? (Put ⟨[("a", ⟨5, 0⟩)], [(0, [1])], 1⟩ 7 2 "b" [2]
          true true).2.files it.file =
        lookup? (⟨[("a", ⟨5, 0⟩)], [(0, [1])], 1⟩ : FCState).files it.file :=
  c10_put_frame _ 7 2 "b" "a" [2] true true (by decide) (by decide)

end Filecache
